import Mathlib

/-
Verification development for the autonomous-scraper job queue and worker
scheduling subsystem (backend/main.py and worker/worker.py).

The Python source is shallowly embedded: MongoDB documents become a record
type, the jobs collection becomes a list of records, update_one with a
filter on the _id field becomes a first-match functional update, and the
asynchronous control flow of the worker is modelled by explicit state
passing.  External effects (page fetches, robots.txt fetches, clock reads)
are supplied as explicit environment parameters so that every embedded
operation is a computable function.
-/

namespace AutonomousScraper

/-- Job status constants (class JobStatus in both backend/main.py and
worker/worker.py): pending, in_progress, completed, failed. -/
inductive JobStatus where
  | pending
  | inProgress
  | completed
  | failed
deriving DecidableEq, Repr

/-- Opaque dictionary payload (Python dict).  Only presence and Python
truthiness (a dict is falsy iff empty) matter to the embedded operations,
so entries are modelled as string pairs. -/
abbrev Document := List (String × String)

/-- A job document as stored in the jobs collection.  Fields follow the
document created by create_scrape_job in backend/main.py: url, status,
createdAt, updatedAt, completedAt, result, error, options.  Timestamps are
abstract Nat instants; the _id is an abstract Nat. -/
structure Job where
  id : Nat
  url : String
  status : JobStatus
  createdAt : Nat
  updatedAt : Nat
  completedAt : Option Nat
  result : Option Document
  error : Option String
  options : Document
deriving DecidableEq, Repr

/-- The jobs collection: a list of job documents. -/
abbrev Store := List Job

/-- Python truthiness of an optional dict argument: None and the empty
dict are falsy (the result parameter of _update_job_status). -/
def truthyDoc : Option Document → Bool
  | none => false
  | some d => !d.isEmpty

/-- Python truthiness of an optional string argument: None and the empty
string are falsy (the error parameter of _update_job_status). -/
def truthyStr : Option String → Bool
  | none => false
  | some s => !s.isEmpty

/-- Whether a status is terminal (membership test
status in [JobStatus.COMPLETED, JobStatus.FAILED] in the source). -/
def isTerminal : JobStatus → Bool
  | .completed => true
  | .failed => true
  | _ => false

/-- The document passed to the $set operator of update_one.  A field whose
value is none here was not included in the update document and therefore
keeps its stored value. -/
structure UpdateSet where
  status : JobStatus
  updatedAt : Nat
  completedAt : Option Nat
  result : Option Document
  error : Option String
deriving DecidableEq, Repr

/-- Application of a $set document to one job record: included fields
overwrite, absent fields are untouched. -/
def applySet (u : UpdateSet) (j : Job) : Job :=
  { j with
    status := u.status
    updatedAt := u.updatedAt
    completedAt := match u.completedAt with | some t => some t | none => j.completedAt
    result := match u.result with | some r => some r | none => j.result
    error := match u.error with | some e => some e | none => j.error }

/-- update_one with filter by _id alone: the first document whose id
matches receives the $set; every other document is untouched.  Note that
the filter does not mention the status field. -/
def updateOne : Store → Nat → UpdateSet → Store
  | [], _, _ => []
  | j :: rest, jobId, u =>
    if j.id = jobId then applySet u j :: rest else j :: updateOne rest jobId u

/-- find_one by _id: the first document whose id matches. -/
def findById (store : Store) (jobId : Nat) : Option Job :=
  store.find? (fun j => j.id = jobId)

/-- The update document built by ScrapingWorker._update_job_status in
worker/worker.py: always sets status and updatedAt; sets completedAt when
the new status is terminal; includes result (resp. error) only when the
argument is truthy in Python (if result: / if error:). -/
def buildUpdateDoc (now : Nat) (status : JobStatus)
    (result : Option Document) (error : Option String) : UpdateSet :=
  { status := status
    updatedAt := now
    completedAt := if isTerminal status then some now else none
    result := if truthyDoc result then result else none
    error := if truthyStr error then error else none }

/-- ScrapingWorker._update_job_status: builds the update document and
applies update_one filtered by _id only; the current status of the stored
record is never consulted. -/
def updateJobStatus (store : Store) (now : Nat) (jobId : Nat) (status : JobStatus)
    (result : Option Document) (error : Option String) : Store :=
  updateOne store jobId (buildUpdateDoc now status result error)

/-- The status validator of JobUpdateRequest in backend/main.py: the raw
status string must be one of the four allowed values, otherwise the
request is rejected with a validation error. -/
def parseStatus (s : String) : Option JobStatus :=
  if s = "pending" then some .pending
  else if s = "in_progress" then some .inProgress
  else if s = "completed" then some .completed
  else if s = "failed" then some .failed
  else none

/-- The update document built by the update_job endpoint in
backend/main.py: status and updatedAt always; completedAt when terminal;
result and error are included whenever they are not None (is not None
checks, so empty payloads are included too). -/
def backendBuildUpdate (now : Nat) (status : JobStatus)
    (result : Option Document) (error : Option String) : UpdateSet :=
  { status := status
    updatedAt := now
    completedAt := if isTerminal status then some now else none
    result := result
    error := error }

/-- The update_job endpoint (PUT /jobs/id in backend/main.py): validates
the status string, checks that the job exists (404 otherwise), then
applies update_one with the $set document unconditionally; the current
status of the stored record is never compared with the requested one. -/
def backendUpdateJob (store : Store) (now : Nat) (jobId : Nat)
    (statusStr : String) (result : Option Document) (error : Option String) :
    Except String Store :=
  match parseStatus statusStr with
  | none => .error "validation error: invalid status"
  | some st =>
    match findById store jobId with
    | none => .error "Job not found"
    | some _ => .ok (updateOne store jobId (backendBuildUpdate now st result error))

/-- The job document inserted by create_scrape_job in backend/main.py:
status pending, createdAt = updatedAt = now, completedAt, result and error
all null. -/
def createJobDoc (jobId : Nat) (now : Nat) (url : String) (options : Document) : Job :=
  { id := jobId
    url := url
    status := .pending
    createdAt := now
    updatedAt := now
    completedAt := none
    result := none
    error := none
    options := options }

/-- The result/error invariant stated by the specification: both fields
null while the job is pending or in progress, exactly one of them non-null
once the status is terminal. -/
def resultErrorInv (j : Job) : Bool :=
  match j.status with
  | .pending => j.result.isNone && j.error.isNone
  | .inProgress => j.result.isNone && j.error.isNone
  | _ => (j.result.isSome && j.error.isNone) || (j.result.isNone && j.error.isSome)

/- ===== RobotsChecker (worker/worker.py, class RobotsChecker) ===== -/

/-- A parsed URL as produced by urlparse, restricted to the components the
source reads: scheme, netloc and path. -/
structure ParsedUrl where
  scheme : String
  netloc : String
  path : String
deriving DecidableEq, Repr

/-- Reassembled URL string, the url value passed to rp.can_fetch. -/
def urlString (u : ParsedUrl) : String :=
  u.scheme ++ "://" ++ u.netloc ++ u.path

/-- The robots.txt URL built in RobotsChecker.can_fetch from the scheme
and netloc of the target URL. -/
def robotsUrlOf (u : ParsedUrl) : String :=
  u.scheme ++ "://" ++ u.netloc ++ "/robots.txt"

/-- Outcome of the robots.txt retrieval: either some exception was raised
while fetching or parsing (client.get, rp.read), or a response with the
given HTTP status code arrived. -/
inductive FetchOutcome where
  | exn (msg : String)
  | status (code : Nat)
deriving DecidableEq, Repr

/-- External world seen by RobotsChecker.can_fetch: the outcome of
fetching a given robots.txt URL, and the decision function of the parsed
robots file (RobotFileParser.can_fetch applied to an agent and a URL). -/
structure RobotsEnv where
  fetch : String → FetchOutcome
  decide : String → String → String → Bool

/-- The robots cache: a map from cache key (robots URL joined with the
agent) to the cached boolean decision and the timestamp it was stored. -/
def RobotsCache := String → Option (Bool × Nat)

/-- Empty cache (self.cache = {} in RobotsChecker.__init__). -/
def emptyRobotsCache : RobotsCache := fun _ => none

/-- Dictionary assignment self.cache[key] = (decision, now). -/
def cacheInsert (c : RobotsCache) (key : String) (v : Bool × Nat) : RobotsCache :=
  fun k => if k = key then some v else c k

/-- The cache key built in RobotsChecker.can_fetch: the robots URL of the
target joined with the user agent.  The path of the target URL does not
appear in the key. -/
def cacheKey (u : ParsedUrl) (agent : String) : String :=
  robotsUrlOf u ++ ":" ++ agent

/-- The cache consultation at the top of RobotsChecker.can_fetch: a cached
entry is used only when its timestamp is within the 3600 second TTL; a
stale entry is ignored (and later overwritten on a successful fetch). -/
def cacheLookup (cache : RobotsCache) (now : Nat) (key : String) : Option Bool :=
  match cache key with
  | some (cached, ts) => if now - ts < 3600 then some cached else none
  | none => none

/-- RobotsChecker.can_fetch.  Control flow follows the source: a fresh
cache entry within the TTL is returned as is; otherwise the robots file is
fetched; on HTTP 200 the decision for the specific target URL is computed,
cached under the per-origin key and returned; on any other status or any
exception the function returns true (fail-open) without caching; the outer
exception handler likewise returns true. -/
def canFetch (env : RobotsEnv) (now : Nat) (cache : RobotsCache)
    (url : ParsedUrl) (agent : String) : Bool × RobotsCache :=
  let robotsUrl := robotsUrlOf url
  let key := cacheKey url agent
  match cacheLookup cache now key with
  | some cached => (cached, cache)
  | none =>
    match env.fetch robotsUrl with
    | .status code =>
      if code = 200 then
        let dec := env.decide robotsUrl agent (urlString url)
        (dec, cacheInsert cache key (dec, now))
      else (true, cache)
    | .exn _ => (true, cache)

/- ===== Worker processing loop (ScrapingWorker) ===== -/

/-- External effects of processing one job: the outcome of the robots
check for its URL and the outcome of _scrape_page, which either returns a
result document or raises with an exception message (navigation failure,
HTTP status of 400 or more, page size limit, and so on). -/
structure ProcEnv where
  robotsAllowed : Bool
  scrape : Except String Document

/-- In-memory worker state: the jobs collection it talks to, the
current_jobs set of in-flight job ids, and the observability counters. -/
structure WorkerState where
  store : Store
  currentJobs : Finset Nat
  jobsProcessed : Nat
  jobsSucceeded : Nat
  jobsFailed : Nat
deriving DecidableEq

/-- Combined outcome of the robots check and the scrape inside one body
attempt: a disallowed robots check raises the fixed exception message
before any fetch; otherwise the scrape outcome decides. -/
def attemptOutcome (env : ProcEnv) : Except String Document :=
  if !env.robotsAllowed then .error "Robots.txt disallows fetching this URL"
  else env.scrape

/-- One attempt of the body of ScrapingWorker._process_single_job: set the
job to in_progress, run the robots check (raising the fixed message when
disallowed), scrape, and set the terminal status; the except block turns
any exception into a failed update, and the finally block discards the job
id from current_jobs and bumps the processed counter.  The second
component records an exception escaping the body; the try/except/finally
spans the whole body, so it is always none. -/
def processAttempt (env : ProcEnv) (now : Nat) (jobId : Nat)
    (st : WorkerState) : WorkerState × Option String :=
  let st1 := { st with store := updateJobStatus st.store now jobId .inProgress none none }
  let st2 :=
    match attemptOutcome env with
    | .ok result =>
      { st1 with
        store := updateJobStatus st1.store now jobId .completed (some result) none
        jobsSucceeded := st1.jobsSucceeded + 1 }
    | .error e =>
      { st1 with
        store := updateJobStatus st1.store now jobId .failed none (some e)
        jobsFailed := st1.jobsFailed + 1 }
  ({ st2 with
      currentJobs := st2.currentJobs.erase jobId
      jobsProcessed := st2.jobsProcessed + 1 }, none)

/-- Semantics of the tenacity retry decorator with stop_after_attempt:
run the body; if it returns normally, stop; if an exception escapes and
attempts remain, retry; at the last allowed attempt the exception is
re-raised.  Returns the final state, the number of attempts executed and
the exception escaping the decorated call, if any. -/
def retryLoop (body : WorkerState → WorkerState × Option String) :
    Nat → WorkerState → WorkerState × Nat × Option String
  | 0, st => (st, 0, none)
  | n + 1, st =>
    match body st with
    | (st1, none) => (st1, 1, none)
    | (st1, some e) =>
      if n = 0 then (st1, 1, some e)
      else
        let (st2, k, r) := retryLoop body n st1
        (st2, k + 1, r)

/-- ScrapingWorker._process_single_job: the body above wrapped in the
retry decorator with stop_after_attempt(3). -/
def processSingleJob (env : ProcEnv) (now : Nat) (jobId : Nat)
    (st : WorkerState) : WorkerState × Nat × Option String :=
  retryLoop (processAttempt env now jobId) 3 st

/-- Stable insertion by ascending createdAt, embedding the
sort("createdAt", 1) applied by the poll query. -/
def insertByCreatedAt (j : Job) : List Job → List Job
  | [] => [j]
  | k :: rest =>
    if j.createdAt ≤ k.createdAt then j :: k :: rest else k :: insertByCreatedAt j rest

/-- Sort of the pending jobs by ascending createdAt. -/
def sortByCreatedAt : List Job → List Job
  | [] => []
  | j :: rest => insertByCreatedAt j (sortByCreatedAt rest)

/-- The dispatch loop of _process_jobs: for each returned job whose id is
not already in current_jobs, add it to current_jobs and create its task.
Returns the grown set and the ids claimed this tick, in dispatch order. -/
def claimLoop : List Job → Finset Nat → Finset Nat × List Nat
  | [], cur => (cur, [])
  | j :: rest, cur =>
    if j.id ∈ cur then claimLoop rest cur
    else
      ((claimLoop rest (insert j.id cur)).1, j.id :: (claimLoop rest (insert j.id cur)).2)

/-- Result of one poll tick: the worker state when _process_jobs returns,
whether the store was queried, the ids claimed during the tick, and the
size of current_jobs right after dispatch (its peak for the tick). -/
structure TickReport where
  st : WorkerState
  queried : Bool
  claimed : List Nat
  peak : Nat
deriving DecidableEq

/-- The awaited asyncio.gather over the tasks created during a tick: every
task body runs to completion before _process_jobs returns.  Each task
mutates only the record of its own job id and erases only its own id from
current_jobs, so running the bodies in dispatch order is a faithful
serialisation of the gather. -/
def gatherTasks (envs : Nat → ProcEnv) (now : Nat) (ids : List Nat)
    (st : WorkerState) : WorkerState :=
  ids.foldl (fun s i => (processSingleJob (envs i) now i s).1) st

/-- ScrapingWorker._process_jobs, one poll tick.  If current_jobs already
holds MAX_CONCURRENT_JOBS or more ids the tick returns without querying
the store.  Otherwise the store is queried for pending jobs sorted by
createdAt limited to the remaining capacity, each returned job not already
in current_jobs is added and dispatched, and — because the source awaits
asyncio.gather over the created tasks — every dispatched task body runs to
completion before the tick returns. -/
def processJobs (envs : Nat → ProcEnv) (now : Nat) (maxConcurrent : Nat)
    (st : WorkerState) : TickReport :=
  if st.currentJobs.card ≥ maxConcurrent then
    { st := st, queried := false, claimed := [], peak := st.currentJobs.card }
  else
    let jobsToProcess := maxConcurrent - st.currentJobs.card
    let jobs := (sortByCreatedAt (st.store.filter (fun j => j.status = .pending))).take jobsToProcess
    let claim := claimLoop jobs st.currentJobs
    let stFinal := gatherTasks envs now claim.2 { st with currentJobs := claim.1 }
    { st := stFinal, queried := true, claimed := claim.2, peak := claim.1.card }

/- ===== Shutdown (ScrapingWorker.shutdown) ===== -/

/-- Fuel-indexed unfolding of the wait loop in ScrapingWorker.shutdown:
while current_jobs is nonempty, sleep and check again.  The argument
emptyAt reports whether current_jobs is observed empty at the n-th check;
the loop exits — and only then are the browser, context and client closed
— when a check succeeds.  The source contains no timeout branch, so the
only exit is a successful emptiness check; the fuel bounds the unfolding.
Returns the index of the successful check, or none if the fuel runs out
first. -/
def shutdownWait : Nat → (Nat → Bool) → Option Nat
  | 0, _ => none
  | fuel + 1, emptyAt =>
    if emptyAt 0 = true then some 0
    else
      match shutdownWait fuel (fun n => emptyAt (n + 1)) with
      | some k => some (k + 1)
      | none => none

/- ===== Observations on stored records ===== -/

/-- Status of the stored record with the given id, if any. -/
def statusAt (store : Store) (jobId : Nat) : Option JobStatus :=
  (findById store jobId).map (·.status)

/-- Error field of the stored record with the given id, if any. -/
def errorAt (store : Store) (jobId : Nat) : Option (Option String) :=
  (findById store jobId).map (·.error)

/-- Whether the stored record with the given id is in a terminal state. -/
def terminalAt (store : Store) (jobId : Nat) : Bool :=
  match findById store jobId with
  | some j => isTerminal j.status
  | none => false

/-- The result/error invariant evaluated at the stored record with the
given id (vacuously true when no record exists). -/
def invAt (store : Store) (jobId : Nat) : Bool :=
  match findById store jobId with
  | some j => resultErrorInv j
  | none => true

/-- The wire string of each status value, inverse of the status
validator. -/
def statusString : JobStatus → String
  | .pending => "pending"
  | .inProgress => "in_progress"
  | .completed => "completed"
  | .failed => "failed"

/- ===== Helper lemmas ===== -/

theorem applySet_id (u : UpdateSet) (j : Job) : (applySet u j).id = j.id := rfl

theorem applySet_status (u : UpdateSet) (j : Job) : (applySet u j).status = u.status := rfl

theorem findById_updateOne_self (store : Store) (jobId : Nat) (u : UpdateSet) :
    findById (updateOne store jobId u) jobId = (findById store jobId).map (applySet u) := by
  induction store with
  | nil => rfl
  | cons j rest ih =>
    by_cases h : j.id = jobId
    · simp [updateOne, findById, List.find?, h, applySet_id]
    · simpa [updateOne, findById, List.find?, h, applySet_id] using ih

theorem findById_updateOne_ne (store : Store) (jobId q : Nat) (u : UpdateSet)
    (h : q ≠ jobId) :
    findById (updateOne store jobId u) q = findById store q := by
  induction store with
  | nil => rfl
  | cons j rest ih =>
    have hne : ¬ jobId = q := fun hq => h hq.symm
    by_cases hj : j.id = jobId
    · simp [updateOne, findById, List.find?, hj, applySet_id, hne]
    · by_cases hq : j.id = q
      · simp [updateOne, findById, List.find?, hj, hq, h]
      · simpa [updateOne, findById, List.find?, hj, hq, h] using ih

theorem processAttempt_snd (env : ProcEnv) (now jobId : Nat) (st : WorkerState) :
    (processAttempt env now jobId st).2 = none := rfl

theorem processSingleJob_eq (env : ProcEnv) (now jobId : Nat) (st : WorkerState) :
    processSingleJob env now jobId st = ((processAttempt env now jobId st).1, 1, none) := rfl

theorem processAttempt_currentJobs (env : ProcEnv) (now jobId : Nat) (st : WorkerState) :
    (processAttempt env now jobId st).1.currentJobs = st.currentJobs.erase jobId := by
  cases h : attemptOutcome env <;> simp [processAttempt, h]

theorem processAttempt_store_ok (env : ProcEnv) (now jobId : Nat) (st : WorkerState)
    (r : Document) (h : attemptOutcome env = .ok r) :
    (processAttempt env now jobId st).1.store =
      updateJobStatus (updateJobStatus st.store now jobId .inProgress none none)
        now jobId .completed (some r) none := by
  simp [processAttempt, h]

theorem processAttempt_store_error (env : ProcEnv) (now jobId : Nat) (st : WorkerState)
    (e : String) (h : attemptOutcome env = .error e) :
    (processAttempt env now jobId st).1.store =
      updateJobStatus (updateJobStatus st.store now jobId .inProgress none none)
        now jobId .failed none (some e) := by
  simp [processAttempt, h]

theorem findById_processAttempt_ne (env : ProcEnv) (now jobId q : Nat) (st : WorkerState)
    (h : q ≠ jobId) :
    findById (processAttempt env now jobId st).1.store q = findById st.store q := by
  cases he : attemptOutcome env with
  | ok r =>
    rw [processAttempt_store_ok env now jobId st r he]
    simp [updateJobStatus, findById_updateOne_ne _ _ _ _ h]
  | error e =>
    rw [processAttempt_store_error env now jobId st e he]
    simp [updateJobStatus, findById_updateOne_ne _ _ _ _ h]

theorem findById_processAttempt_self_ok (env : ProcEnv) (now jobId : Nat) (st : WorkerState)
    (r : Document) (j : Job) (he : attemptOutcome env = .ok r)
    (hfind : findById st.store jobId = some j) :
    findById (processAttempt env now jobId st).1.store jobId =
      some (applySet (buildUpdateDoc now .completed (some r) none)
        (applySet (buildUpdateDoc now .inProgress none none) j)) := by
  rw [processAttempt_store_ok env now jobId st r he]
  simp [updateJobStatus, findById_updateOne_self, hfind]

theorem findById_processAttempt_self_error (env : ProcEnv) (now jobId : Nat) (st : WorkerState)
    (e : String) (j : Job) (he : attemptOutcome env = .error e)
    (hfind : findById st.store jobId = some j) :
    findById (processAttempt env now jobId st).1.store jobId =
      some (applySet (buildUpdateDoc now .failed none (some e))
        (applySet (buildUpdateDoc now .inProgress none none) j)) := by
  rw [processAttempt_store_error env now jobId st e he]
  simp [updateJobStatus, findById_updateOne_self, hfind]

theorem claimLoop_not_mem (jobs : List Job) :
    ∀ cur, ∀ x ∈ (claimLoop jobs cur).2, x ∉ cur := by
  induction jobs with
  | nil => intro cur x hx; simp [claimLoop] at hx
  | cons j rest ih =>
    intro cur x hx
    by_cases hj : j.id ∈ cur
    · exact ih cur x (by simpa [claimLoop, hj] using hx)
    · simp only [claimLoop, hj, if_neg, ite_false, List.mem_cons] at hx
      rcases hx with rfl | hx
      · exact hj
      · intro hcur
        exact ih (insert j.id cur) x hx (Finset.mem_insert_of_mem hcur)

theorem claimLoop_nodup (jobs : List Job) :
    ∀ cur, (claimLoop jobs cur).2.Nodup := by
  induction jobs with
  | nil => intro cur; simp [claimLoop]
  | cons j rest ih =>
    intro cur
    by_cases hj : j.id ∈ cur
    · simpa [claimLoop, hj] using ih cur
    · simp only [claimLoop, hj, ite_false, List.nodup_cons]
      refine ⟨fun hmem => ?_, ih (insert j.id cur)⟩
      exact claimLoop_not_mem rest (insert j.id cur) j.id hmem (Finset.mem_insert_self _ _)

theorem claimLoop_mem_fst (jobs : List Job) :
    ∀ cur x, x ∈ (claimLoop jobs cur).1 ↔ x ∈ cur ∨ x ∈ (claimLoop jobs cur).2 := by
  induction jobs with
  | nil => intro cur x; simp [claimLoop]
  | cons j rest ih =>
    intro cur x
    by_cases hj : j.id ∈ cur
    · simpa [claimLoop, hj] using ih cur x
    · simp only [claimLoop, hj, ite_false, List.mem_cons]
      rw [ih (insert j.id cur) x]
      constructor
      · rintro (hx | hx)
        · rcases Finset.mem_insert.mp hx with rfl | hx
          · exact Or.inr (Or.inl rfl)
          · exact Or.inl hx
        · exact Or.inr (Or.inr hx)
      · rintro (hx | rfl | hx)
        · exact Or.inl (Finset.mem_insert_of_mem hx)
        · exact Or.inl (Finset.mem_insert_self _ _)
        · exact Or.inr hx

theorem claimLoop_card (jobs : List Job) :
    ∀ cur, (claimLoop jobs cur).1.card = cur.card + (claimLoop jobs cur).2.length := by
  induction jobs with
  | nil => intro cur; simp [claimLoop]
  | cons j rest ih =>
    intro cur
    by_cases hj : j.id ∈ cur
    · simpa [claimLoop, hj] using ih cur
    · simp only [claimLoop, hj, ite_false, List.length_cons]
      rw [ih (insert j.id cur), Finset.card_insert_of_not_mem hj]
      omega

theorem claimLoop_length (jobs : List Job) :
    ∀ cur, (claimLoop jobs cur).2.length ≤ jobs.length := by
  induction jobs with
  | nil => intro cur; simp [claimLoop]
  | cons j rest ih =>
    intro cur
    by_cases hj : j.id ∈ cur
    · simp only [claimLoop, hj, ite_true, List.length_cons]
      exact Nat.le_succ_of_le (ih cur)
    · simp only [claimLoop, hj, ite_false, List.length_cons]
      exact Nat.succ_le_succ (ih (insert j.id cur))

theorem claimLoop_mem_src (jobs : List Job) :
    ∀ cur x, x ∈ (claimLoop jobs cur).2 → ∃ j ∈ jobs, j.id = x := by
  induction jobs with
  | nil => intro cur x hx; simp [claimLoop] at hx
  | cons j rest ih =>
    intro cur x hx
    by_cases hj : j.id ∈ cur
    · obtain ⟨k, hk, hkx⟩ := ih cur x (by simpa [claimLoop, hj] using hx)
      exact ⟨k, List.mem_cons_of_mem _ hk, hkx⟩
    · simp only [claimLoop, hj, ite_false, List.mem_cons] at hx
      rcases hx with rfl | hx
      · exact ⟨j, List.mem_cons_self _ _, rfl⟩
      · obtain ⟨k, hk, hkx⟩ := ih (insert j.id cur) x hx
        exact ⟨k, List.mem_cons_of_mem _ hk, hkx⟩

theorem mem_insertByCreatedAt (j x : Job) (l : List Job) :
    x ∈ insertByCreatedAt j l ↔ x = j ∨ x ∈ l := by
  induction l with
  | nil => simp [insertByCreatedAt]
  | cons k rest ih =>
    by_cases h : j.createdAt ≤ k.createdAt
    · simp [insertByCreatedAt, h]
    · simp only [insertByCreatedAt, h, ite_false, List.mem_cons, ih]
      tauto

theorem mem_sortByCreatedAt (x : Job) (l : List Job) :
    x ∈ sortByCreatedAt l ↔ x ∈ l := by
  induction l with
  | nil => simp [sortByCreatedAt]
  | cons k rest ih =>
    simp [sortByCreatedAt, mem_insertByCreatedAt, ih]

theorem gatherTasks_currentJobs (envs : Nat → ProcEnv) (now : Nat) (ids : List Nat) :
    ∀ st : WorkerState,
      (gatherTasks envs now ids st).currentJobs =
        ids.foldl (fun c i => c.erase i) st.currentJobs := by
  induction ids with
  | nil => intro st; rfl
  | cons i rest ih =>
    intro st
    have hstep : ((processSingleJob (envs i) now i st).1).currentJobs = st.currentJobs.erase i := by
      rw [processSingleJob_eq]
      exact processAttempt_currentJobs _ _ _ _
    calc (gatherTasks envs now (i :: rest) st).currentJobs
        = (gatherTasks envs now rest (processSingleJob (envs i) now i st).1).currentJobs := rfl
      _ = rest.foldl (fun c k => c.erase k) ((processSingleJob (envs i) now i st).1).currentJobs := ih _
      _ = rest.foldl (fun c k => c.erase k) (st.currentJobs.erase i) := by rw [hstep]

theorem mem_foldl_erase (ids : List Nat) :
    ∀ (cur : Finset Nat) (x : Nat),
      x ∈ ids.foldl (fun c i => c.erase i) cur ↔ x ∈ cur ∧ x ∉ ids := by
  induction ids with
  | nil => intro cur x; simp
  | cons i rest ih =>
    intro cur x
    simp only [List.foldl_cons, ih, Finset.mem_erase, List.mem_cons]
    constructor
    · rintro ⟨⟨hne, hcur⟩, hrest⟩
      exact ⟨hcur, by rintro (rfl | hx) <;> [exact hne rfl; exact hrest hx]⟩
    · rintro ⟨hcur, hni⟩
      exact ⟨⟨fun hx => hni (Or.inl hx), hcur⟩, fun hx => hni (Or.inr hx)⟩

theorem gatherTasks_store_not_mem (envs : Nat → ProcEnv) (now : Nat) (ids : List Nat) :
    ∀ (st : WorkerState) (q : Nat), q ∉ ids →
      findById (gatherTasks envs now ids st).store q = findById st.store q := by
  induction ids with
  | nil => intro st q _; rfl
  | cons i rest ih =>
    intro st q hq
    have hqi : q ≠ i := fun h => hq (h ▸ List.mem_cons_self _ _)
    have hqr : q ∉ rest := fun h => hq (List.mem_cons_of_mem _ h)
    calc findById (gatherTasks envs now (i :: rest) st).store q
        = findById (gatherTasks envs now rest (processSingleJob (envs i) now i st).1).store q := rfl
      _ = findById ((processSingleJob (envs i) now i st).1).store q := ih _ q hqr
      _ = findById st.store q := by
          rw [processSingleJob_eq]
          exact findById_processAttempt_ne _ _ _ _ _ hqi

theorem terminalAt_processAttempt_self (env : ProcEnv) (now jobId : Nat) (st : WorkerState)
    (hsome : (findById st.store jobId).isSome) :
    terminalAt (processAttempt env now jobId st).1.store jobId = true := by
  obtain ⟨j, hj⟩ := Option.isSome_iff_exists.mp hsome
  cases he : attemptOutcome env with
  | ok r =>
    rw [terminalAt, findById_processAttempt_self_ok env now jobId st r j he hj]
    rfl
  | error e =>
    rw [terminalAt, findById_processAttempt_self_error env now jobId st e j he hj]
    rfl

theorem gatherTasks_terminal (envs : Nat → ProcEnv) (now : Nat) (ids : List Nat) :
    ∀ (st : WorkerState), ids.Nodup →
      (∀ i ∈ ids, (findById st.store i).isSome) →
      ∀ i ∈ ids, terminalAt (gatherTasks envs now ids st).store i = true := by
  induction ids with
  | nil => intro st _ _ i hi; simp at hi
  | cons k rest ih =>
    intro st hnd hsome i hi
    have hknr : k ∉ rest := (List.nodup_cons.mp hnd).1
    have hndr : rest.Nodup := (List.nodup_cons.mp hnd).2
    rcases List.mem_cons.mp hi with rfl | hir
    · have hterm := terminalAt_processAttempt_self (envs i) now i st (hsome i (List.mem_cons_self _ _))
      have hpres := gatherTasks_store_not_mem envs now rest ((processSingleJob (envs i) now i st).1) i hknr
      have hunf : (gatherTasks envs now (i :: rest) st).store =
          (gatherTasks envs now rest (processSingleJob (envs i) now i st).1).store := rfl
      rw [terminalAt] at hterm ⊢
      rw [hunf, hpres, processSingleJob_eq]
      exact hterm
    · have hik : i ≠ k := fun h => hknr (h ▸ hir)
      have hsome2 : ∀ x ∈ rest, (findById ((processSingleJob (envs k) now k st).1).store x).isSome := by
        intro x hx
        by_cases hxk : x = k
        · exact absurd (hxk ▸ hx) hknr
        · rw [processSingleJob_eq]
          rw [findById_processAttempt_ne _ _ _ _ _ hxk]
          exact hsome x (List.mem_cons_of_mem _ hx)
      exact ih ((processSingleJob (envs k) now k st).1) hndr hsome2 i hir

/- ===== Concrete fixtures ===== -/

/-- A freshly created pending job. -/
def jobOne : Job := createJobDoc 1 0 "https://example.com" []

/-- A store holding only the pending job. -/
def storeOne : Store := [jobOne]

/-- A completed job with a populated result. -/
def jobDone : Job :=
  { jobOne with
    status := .completed
    result := some [("title", "t")]
    completedAt := some 1
    updatedAt := 1 }

/-- A store holding only the completed job. -/
def storeDone : Store := [jobDone]

/-- Processing environment where the page fetch raises a transient
timeout exception. -/
def envTimeout : ProcEnv :=
  { robotsAllowed := true, scrape := .error "ConnectTimeout: timed out" }

/-- Processing environment where the page fetch raises an exception whose
string form is empty. -/
def envEmptyMsg : ProcEnv := { robotsAllowed := true, scrape := .error "" }

/-- Processing environment where the page fetch succeeds. -/
def envOkFetch : ProcEnv :=
  { robotsAllowed := true, scrape := .ok [("url", "https://example.com")] }

/-- Worker state with the pending job in the store and its id already in
current_jobs. -/
def wstOne : WorkerState :=
  { store := storeOne, currentJobs := {1}, jobsProcessed := 0,
    jobsSucceeded := 0, jobsFailed := 0 }

/-- Worker state with the pending job in the store and an empty
current_jobs set. -/
def wstIdle : WorkerState :=
  { store := storeOne, currentJobs := ∅, jobsProcessed := 0,
    jobsSucceeded := 0, jobsFailed := 0 }

/-- Robots environment whose robots file allows exactly one path of the
origin. -/
def robotsEnvSel : RobotsEnv :=
  { fetch := fun _ => .status 200,
    decide := fun _ _ u => u = "http://example.com/allowed" }

/-- A URL the robots file of robotsEnvSel blocks. -/
def urlBlocked : ParsedUrl := ⟨"http", "example.com", "/blocked"⟩

/-- A URL the robots file of robotsEnvSel allows. -/
def urlAllowed : ParsedUrl := ⟨"http", "example.com", "/allowed"⟩

/-- Robots environment whose robots fetch raises an exception. -/
def robotsEnvErr : RobotsEnv :=
  { fetch := fun _ => .exn "connection refused", decide := fun _ _ _ => false }

/-- Whether the outcome of a body attempt carries a nonempty payload: a
nonempty result document on success, a nonempty exception message on
failure. -/
def wellFormedOutcome (env : ProcEnv) : Bool :=
  match attemptOutcome env with
  | .ok r => !r.isEmpty
  | .error e => !e.isEmpty

/- ===== Claim theorems ===== -/

/-- C1: the claim asserts that moving a job from pending to in_progress is
an atomic conditional update applying only while the status is still
pending, so that of two racing workers the loser observes a no-op.  In
the source the update filter mentions only the id, so the update applies
whatever the stored status is: after worker A claims the pending job at
time 5, the identical claim issued by worker B at time 6 still applies
and mutates the record instead of being a no-op. -/
theorem c1_claim_update_unconditional :
    statusAt (updateJobStatus storeOne 5 1 .inProgress none none) 1 = some .inProgress ∧
    findById (updateJobStatus (updateJobStatus storeOne 5 1 .inProgress none none)
        6 1 .inProgress none none) 1 ≠
      findById (updateJobStatus storeOne 5 1 .inProgress none none) 1 := by
  decide

/-- C2 counterexample: the claim asserts that a transition out of a
terminal state fails with an InvalidTransition condition and leaves the
record unchanged; the update_job endpoint accepts the completed to pending
request and mutates the record. -/
theorem c2_counterexample :
    backendUpdateJob storeDone 9 1 "pending" none none =
      .ok (updateOne storeDone 1 (backendBuildUpdate 9 .pending none none)) ∧
    statusAt (updateOne storeDone 1 (backendBuildUpdate 9 .pending none none)) 1 =
      some .pending ∧
    findById (updateOne storeDone 1 (backendBuildUpdate 9 .pending none none)) 1 ≠
      findById storeDone 1 := by
  refine ⟨rfl, by decide, by decide⟩

/-- C2 amended: only status strings outside the four allowed values are
rejected (by request validation); any requested transition between valid
statuses on an existing job — by the public endpoint or by the worker
update — is applied unconditionally, whatever the current stored status,
and mutates the record; no InvalidTransition check exists. -/
theorem c2_transitions_unconditional (store : Store) (now jobId : Nat)
    (st : JobStatus) (res : Option Document) (err : Option String) (j : Job)
    (hfind : findById store jobId = some j) :
    backendUpdateJob store now jobId (statusString st) res err =
      .ok (updateOne store jobId (backendBuildUpdate now st res err)) ∧
    statusAt (updateOne store jobId (backendBuildUpdate now st res err)) jobId = some st ∧
    statusAt (updateJobStatus store now jobId st res err) jobId = some st := by
  have hparse : parseStatus (statusString st) = some st := by cases st <;> rfl
  refine ⟨?_, ?_, ?_⟩
  · simp [backendUpdateJob, hparse, hfind]
  · simp [statusAt, findById_updateOne_self, hfind, applySet_status, backendBuildUpdate]
  · simp [statusAt, updateJobStatus, findById_updateOne_self, hfind, applySet_status,
      buildUpdateDoc]

theorem c2_witness :
    backendUpdateJob storeDone 9 1 (statusString .pending) none none =
      .ok (updateOne storeDone 1 (backendBuildUpdate 9 .pending none none)) ∧
    statusAt (updateOne storeDone 1 (backendBuildUpdate 9 .pending none none)) 1 =
      some .pending ∧
    statusAt (updateJobStatus storeDone 9 1 .pending none none) 1 = some .pending :=
  c2_transitions_unconditional storeDone 9 1 .pending none none jobDone (by decide)

/-- C3 counterexample: the claim asserts the result/error invariant is
preserved by every status update the system performs; the update_job
endpoint accepts a completed request carrying neither result nor error on
a pending job, producing a terminal record with both fields null. -/
theorem c3_counterexample :
    backendUpdateJob storeOne 9 1 "completed" none none =
      .ok (updateOne storeOne 1 (backendBuildUpdate 9 .completed none none)) ∧
    invAt (updateOne storeOne 1 (backendBuildUpdate 9 .completed none none)) 1 = false := by
  refine ⟨rfl, by decide⟩

/-- C3 amended: job creation establishes the invariant, and the worker
path preserves it for a stored record with both fields null provided the
attempt outcome carries a nonempty payload: a successful attempt sets
exactly result, a failing attempt with nonempty message sets exactly
error.  (A failing attempt whose exception stringifies to the empty
string omits the error field, and the public update endpoint applies
arbitrary combinations; those paths break the invariant.) -/
theorem c3_worker_path_preserves_inv (env : ProcEnv) (now jobId : Nat)
    (st : WorkerState) (j : Job)
    (hfind : findById st.store jobId = some j)
    (hres : j.result = none) (herr : j.error = none)
    (hwf : wellFormedOutcome env = true) :
    resultErrorInv (createJobDoc jobId now j.url j.options) = true ∧
    invAt (processSingleJob env now jobId st).1.store jobId = true := by
  refine ⟨rfl, ?_⟩
  rw [processSingleJob_eq]
  cases he : attemptOutcome env with
  | ok r =>
    have hr : r.isEmpty = false := by
      simpa [wellFormedOutcome, he] using hwf
    rw [invAt, findById_processAttempt_self_ok env now jobId st r j he hfind]
    simp [applySet, buildUpdateDoc, truthyDoc, truthyStr, resultErrorInv, isTerminal,
      hr, hres, herr]
  | error e =>
    have he' : e.isEmpty = false := by
      simpa [wellFormedOutcome, he] using hwf
    rw [invAt, findById_processAttempt_self_error env now jobId st e j he hfind]
    simp [applySet, buildUpdateDoc, truthyDoc, truthyStr, resultErrorInv, isTerminal,
      he', hres, herr]

theorem c3_witness :
    resultErrorInv (createJobDoc 1 5 jobOne.url jobOne.options) = true ∧
    invAt (processSingleJob envTimeout 5 1 wstOne).1.store 1 = true :=
  c3_worker_path_preserves_inv envTimeout 5 1 wstOne jobOne (by decide) (by decide)
    (by decide) (by decide)

/-- C4: the claim asserts that transient fetch failures are retried with
exponential backoff up to a fixed attempt ceiling, the job staying
in_progress until retries are exhausted.  In the source the retry
decorator can never fire: the body catches every exception and converts
it to a terminal failed update, so the decorated call always makes
exactly one attempt and lets no exception reach the decorator; at the
concrete transient timeout input the job is marked failed immediately
after the first attempt. -/
theorem c4_retry_decorator_inert :
    (∀ (env : ProcEnv) (now jobId : Nat) (st : WorkerState),
      (processSingleJob env now jobId st).2.1 = 1 ∧
      (processSingleJob env now jobId st).2.2 = none) ∧
    statusAt (processSingleJob envTimeout 5 1 wstOne).1.store 1 = some .failed := by
  refine ⟨fun env now jobId st => ?_, by decide⟩
  rw [processSingleJob_eq]
  exact ⟨rfl, rfl⟩

theorem tick_core (envs : Nat → ProcEnv) (now : Nat) (jobs : List Job)
    (st : WorkerState) (hsub : ∀ j ∈ jobs, j ∈ st.store) :
    (gatherTasks envs now (claimLoop jobs st.currentJobs).2
      { st with currentJobs := (claimLoop jobs st.currentJobs).1 }).currentJobs =
      st.currentJobs ∧
    ∀ i ∈ (claimLoop jobs st.currentJobs).2,
      terminalAt (gatherTasks envs now (claimLoop jobs st.currentJobs).2
        { st with currentJobs := (claimLoop jobs st.currentJobs).1 }).store i = true := by
  constructor
  · rw [gatherTasks_currentJobs]
    ext x
    rw [mem_foldl_erase]
    show x ∈ (claimLoop jobs st.currentJobs).1 ∧ _ ↔ _
    rw [claimLoop_mem_fst]
    constructor
    · rintro ⟨hx | hx, hnx⟩
      · exact hx
      · exact absurd hx hnx
    · intro hx
      exact ⟨Or.inl hx, fun hmem => claimLoop_not_mem jobs st.currentJobs x hmem hx⟩
  · intro i hi
    refine gatherTasks_terminal envs now (claimLoop jobs st.currentJobs).2 _
      (claimLoop_nodup jobs st.currentJobs) ?_ i hi
    intro x hx
    obtain ⟨j, hjmem, hjid⟩ := claimLoop_mem_src jobs st.currentJobs x hx
    refine List.find?_isSome.mpr ⟨j, hsub j hjmem, ?_⟩
    simp [hjid]

/-- C5 counterexample: the claim asserts the control loop proceeds to its
next tick without waiting for the dispatched tasks.  On a concrete tick
claiming one pending job, the job is already terminal and out of
current_jobs at the moment _process_jobs returns, because _process_jobs
awaits asyncio.gather over the tasks it created. -/
theorem c5_counterexample :
    (processJobs (fun _ => envOkFetch) 5 3 wstIdle).claimed = [1] ∧
    terminalAt (processJobs (fun _ => envOkFetch) 5 3 wstIdle).st.store 1 = true ∧
    1 ∉ (processJobs (fun _ => envOkFetch) 5 3 wstIdle).st.currentJobs := by
  decide

/-- C5 amended: the claimed jobs are dispatched as concurrently running
tasks within the tick, but _process_jobs awaits asyncio.gather over them,
so the tick returns only after every dispatched task has completed: when
the next tick begins, every job claimed in the previous tick has reached
a terminal status and left current_jobs, and current_jobs is back to its
pre-tick value. -/
theorem c5_tick_awaits_tasks (envs : Nat → ProcEnv) (now maxC : Nat)
    (st : WorkerState) :
    (processJobs envs now maxC st).st.currentJobs = st.currentJobs ∧
    ∀ i ∈ (processJobs envs now maxC st).claimed,
      terminalAt (processJobs envs now maxC st).st.store i = true := by
  by_cases h : st.currentJobs.card ≥ maxC
  · simp [processJobs, h]
  · have hsub : ∀ j ∈ (sortByCreatedAt
        (st.store.filter (fun j => j.status = .pending))).take
          (maxC - st.currentJobs.card), j ∈ st.store := by
      intro j hj
      have hmem := List.take_subset _ _ hj
      rw [mem_sortByCreatedAt] at hmem
      exact (List.mem_filter.mp hmem).1
    have hcore := tick_core envs now _ st hsub
    simpa [processJobs, h] using hcore

theorem c5_witness :
    (processJobs (fun _ => envOkFetch) 7 3 wstIdle).st.currentJobs =
      wstIdle.currentJobs ∧
    ∀ i ∈ (processJobs (fun _ => envOkFetch) 7 3 wstIdle).claimed,
      terminalAt (processJobs (fun _ => envOkFetch) 7 3 wstIdle).st.store i = true :=
  c5_tick_awaits_tasks (fun _ => envOkFetch) 7 3 wstIdle

/-- C6: on every tick the number of newly claimed jobs is bounded by the
remaining capacity, a tick starting at or above the concurrency limit
returns without querying the store or changing anything, and the size of
current_jobs right after dispatch never exceeds the limit. -/
theorem c6_capacity_bound (envs : Nat → ProcEnv) (now maxC : Nat)
    (st : WorkerState) (h : st.currentJobs.card ≤ maxC) :
    (processJobs envs now maxC st).claimed.length ≤ maxC - st.currentJobs.card ∧
    (st.currentJobs.card ≥ maxC →
      (processJobs envs now maxC st).queried = false ∧
      (processJobs envs now maxC st).st = st ∧
      (processJobs envs now maxC st).claimed = []) ∧
    (processJobs envs now maxC st).peak ≤ maxC := by
  by_cases hge : st.currentJobs.card ≥ maxC
  · simpa [processJobs, hge] using h
  · have hjlen : ((sortByCreatedAt
        (st.store.filter (fun j => j.status = .pending))).take
          (maxC - st.currentJobs.card)).length ≤ maxC - st.currentJobs.card := by
      rw [List.length_take]
      exact Nat.min_le_left _ _
    have hlen := Nat.le_trans
      (claimLoop_length ((sortByCreatedAt
        (st.store.filter (fun j => j.status = .pending))).take
          (maxC - st.currentJobs.card)) st.currentJobs) hjlen
    have hcard := claimLoop_card ((sortByCreatedAt
      (st.store.filter (fun j => j.status = .pending))).take
        (maxC - st.currentJobs.card)) st.currentJobs
    refine ⟨?_, fun hc => absurd hc hge, ?_⟩
    · simpa [processJobs, hge] using hlen
    · have : (processJobs envs now maxC st).peak =
          st.currentJobs.card + (claimLoop ((sortByCreatedAt
            (st.store.filter (fun j => j.status = .pending))).take
              (maxC - st.currentJobs.card)) st.currentJobs).2.length := by
        simpa [processJobs, hge] using hcard
      rw [this]
      omega

theorem c6_witness :
    (processJobs (fun _ => envOkFetch) 5 3 wstIdle).claimed.length ≤
      3 - wstIdle.currentJobs.card ∧
    (wstIdle.currentJobs.card ≥ 3 →
      (processJobs (fun _ => envOkFetch) 5 3 wstIdle).queried = false ∧
      (processJobs (fun _ => envOkFetch) 5 3 wstIdle).st = wstIdle ∧
      (processJobs (fun _ => envOkFetch) 5 3 wstIdle).claimed = []) ∧
    (processJobs (fun _ => envOkFetch) 5 3 wstIdle).peak ≤ 3 :=
  c6_capacity_bound (fun _ => envOkFetch) 5 3 wstIdle (by decide)

/-- C7 counterexample: the claim asserts every failing job ends failed
with a nonempty human readable error string; an exception whose string
form is empty yields a failed record whose error field was never written
and is still null. -/
theorem c7_counterexample :
    statusAt (processSingleJob envEmptyMsg 5 1 wstOne).1.store 1 = some .failed ∧
    errorAt (processSingleJob envEmptyMsg 5 1 wstOne).1.store 1 = some none := by
  decide

/-- C7 amended: a job whose processing raises ends in status failed with
the underlying message embedded in the error field provided the message
is nonempty (an empty message leaves error unset), and its id is removed
from current_jobs regardless of outcome. -/
theorem c7_failed_carries_error (env : ProcEnv) (now jobId : Nat)
    (st : WorkerState) (j : Job) (m : String)
    (hfind : findById st.store jobId = some j)
    (hfail : attemptOutcome env = .error m) (hm : m.isEmpty = false) :
    statusAt (processSingleJob env now jobId st).1.store jobId = some .failed ∧
    errorAt (processSingleJob env now jobId st).1.store jobId = some (some m) ∧
    ∀ env2 : ProcEnv, jobId ∉ (processSingleJob env2 now jobId st).1.currentJobs := by
  refine ⟨?_, ?_, ?_⟩
  · rw [processSingleJob_eq]
    rw [statusAt, findById_processAttempt_self_error env now jobId st m j hfail hfind]
    rfl
  · rw [processSingleJob_eq]
    rw [errorAt, findById_processAttempt_self_error env now jobId st m j hfail hfind]
    simp [applySet, buildUpdateDoc, truthyStr, hm]
  · intro env2
    rw [processSingleJob_eq]
    show jobId ∉ (processAttempt env2 now jobId st).1.currentJobs
    rw [processAttempt_currentJobs]
    exact Finset.not_mem_erase _ _

theorem c7_witness :
    statusAt (processSingleJob envTimeout 6 1 wstOne).1.store 1 = some .failed ∧
    errorAt (processSingleJob envTimeout 6 1 wstOne).1.store 1 =
      some (some "ConnectTimeout: timed out") ∧
    ∀ env2 : ProcEnv, 1 ∉ (processSingleJob env2 6 1 wstOne).1.currentJobs :=
  c7_failed_carries_error envTimeout 6 1 wstOne jobOne "ConnectTimeout: timed out"
    (by decide) (by rfl) (by decide)

/-- C8 counterexample: the claim asserts a later can_fetch for a
different path of the same origin and agent within the TTL receives that
path's own decision; with a robots file allowing only one path, querying
the blocked path first caches false under the per-origin key, and the
later query for the allowed path returns the cached false although its
own decision is true. -/
theorem c8_counterexample :
    (canFetch robotsEnvSel 0 emptyRobotsCache urlBlocked "*").1 = false ∧
    robotsEnvSel.decide (robotsUrlOf urlAllowed) "*" (urlString urlAllowed) = true ∧
    (canFetch robotsEnvSel 100
      (canFetch robotsEnvSel 0 emptyRobotsCache urlBlocked "*").2 urlAllowed "*").1 =
      false := by
  refine ⟨rfl, by decide, rfl⟩

/-- C8 amended: on a successful robots fetch the decision computed for
the queried URL is cached under the per-origin key, and a later can_fetch
for any URL with the same robots origin and agent within the TTL returns
that cached decision of the first URL, not a decision computed for its
own path. -/
theorem c8_cache_serves_first_decision (env : RobotsEnv) (cache : RobotsCache)
    (u1 u2 : ParsedUrl) (agent : String) (t1 t2 : Nat)
    (hsame : robotsUrlOf u1 = robotsUrlOf u2)
    (hmiss : cacheLookup cache t1 (cacheKey u1 agent) = none)
    (hfetch : env.fetch (robotsUrlOf u1) = .status 200)
    (httl : t2 - t1 < 3600) :
    (canFetch env t2 (canFetch env t1 cache u1 agent).2 u2 agent).1 =
      env.decide (robotsUrlOf u1) agent (urlString u1) := by
  have hkey : cacheKey u2 agent = cacheKey u1 agent := by
    rw [cacheKey, cacheKey, hsame]
  have h1 : canFetch env t1 cache u1 agent =
      (env.decide (robotsUrlOf u1) agent (urlString u1),
       cacheInsert cache (cacheKey u1 agent)
         (env.decide (robotsUrlOf u1) agent (urlString u1), t1)) := by
    simp [canFetch, hmiss, hfetch]
  rw [h1]
  simp [canFetch, cacheLookup, hkey, cacheInsert, httl]

theorem c8_witness :
    (canFetch robotsEnvSel 100
      (canFetch robotsEnvSel 0 emptyRobotsCache urlBlocked "*").2 urlAllowed "*").1 =
      robotsEnvSel.decide (robotsUrlOf urlBlocked) "*" (urlString urlBlocked) :=
  c8_cache_serves_first_decision robotsEnvSel emptyRobotsCache urlBlocked urlAllowed
    "*" 0 100 rfl rfl rfl (by decide)

theorem shutdownWait_constFalse (fuel : Nat) :
    shutdownWait fuel (fun _ => false) = none := by
  induction fuel with
  | zero => rfl
  | succ n ih => simp [shutdownWait, ih]

/-- C9 counterexample: the claim asserts the shutdown wait is bounded by a
timeout, terminating even when some in-flight job never completes; the
wait loop in the source has no timeout branch, so no amount of fuel makes
it exit on the trace where current_jobs is never observed empty. -/
theorem c9_counterexample :
    ¬ ∃ fuel, (shutdownWait fuel (fun _ => false)).isSome = true := by
  rintro ⟨fuel, hf⟩
  rw [shutdownWait_constFalse fuel] at hf
  simp at hf

/-- C9 amended: shutdown stops issuing new polls and then waits with no
timeout: the wait loop exits — allowing the browser and client resources
to be released — only at a check where current_jobs is observed empty, so
shutdown never completes if some in-flight job never finishes. -/
theorem c9_wait_exits_only_when_empty (fuel : Nat) :
    ∀ (emptyAt : Nat → Bool) (k : Nat),
      shutdownWait fuel emptyAt = some k → emptyAt k = true := by
  induction fuel with
  | zero =>
    intro e k h
    simp [shutdownWait] at h
  | succ n ih =>
    intro e k h
    by_cases h0 : e 0 = true
    · simp only [shutdownWait, h0, if_true] at h
      cases h
      exact h0
    · simp only [shutdownWait, h0, if_false] at h
      cases heq : shutdownWait n (fun m => e (m + 1)) with
      | none => rw [heq] at h; cases h
      | some k1 =>
        rw [heq] at h
        cases h
        exact ih (fun m => e (m + 1)) k1 heq

theorem c9_witness :
    shutdownWait 3 (fun n => n == 1) = some 1 ∧ ((fun n : Nat => n == 1) 1) = true :=
  ⟨by decide, c9_wait_exits_only_when_empty 3 (fun n => n == 1) 1 (by decide)⟩

/-- C10: RobotsChecker.can_fetch is total — it is embedded as a function
returning a Bool because every exception path in the source is an explicit
handler returning True; on every internal error path (any exception while
fetching or parsing, and any non-200 response) with no fresh cache entry,
the returned decision is True (fail-open). -/
theorem c10_error_paths_allow (env : RobotsEnv) (now : Nat) (cache : RobotsCache)
    (url : ParsedUrl) (agent : String)
    (hmiss : cacheLookup cache now (cacheKey url agent) = none)
    (herr : env.fetch (robotsUrlOf url) ≠ .status 200) :
    (canFetch env now cache url agent).1 = true := by
  cases hf : env.fetch (robotsUrlOf url) with
  | exn m => simp [canFetch, hmiss, hf]
  | status code =>
    by_cases hc : code = 200
    · exact absurd (hc ▸ hf) herr
    · simp [canFetch, hmiss, hf, hc]

theorem c10_witness :
    cacheLookup emptyRobotsCache 0 (cacheKey urlAllowed "*") = none ∧
    robotsEnvErr.fetch (robotsUrlOf urlAllowed) ≠ .status 200 ∧
    (canFetch robotsEnvErr 0 emptyRobotsCache urlAllowed "*").1 = true :=
  ⟨rfl, by decide,
    c10_error_paths_allow robotsEnvErr 0 emptyRobotsCache urlAllowed "*" rfl (by decide)⟩

end AutonomousScraper
